import Mathlib

/-!
Verification of the access-control bridge of the HealthLake/Cognito gateway
repository.  Two handlers are embedded:

* the gateway authorizer (a Lambda that verifies a Cognito JWT and emits an
  IAM policy document), and
* the downstream token bridge (a Lambda that HealthLake SMART-on-FHIR calls
  with an operation name, a datastore endpoint URL and a bearer token, and
  that answers with either a structured error or a minted auth payload).

JavaScript strings are Lean `String`s, possibly-absent values are `Option`,
thrown exceptions are `Except.error`, and the external services (Cognito
user lookup, group listing, JWKS key fetch, JWT decode/verify) are explicit
oracle parameters.  Bracket lookups on the object literals are modelled
with their prototype chain: a key naming an `Object.prototype` member is a
defined lookup yielding a truthy non-array, which the program then crashes
on (spread or `.every`) or silently defaults past, and both outcomes are
reproduced.  All recursion is structural so that every definition
evaluates by kernel reduction.
-/

namespace HLBridge

/-! ## Generic string helpers (models of the JS string/URL built-ins used) -/

/-- Split a character list at every occurrence of the separator character,
like the JS `String.prototype.split` with a one-character separator. -/
def splitOnCharAux (sep : Char) : List Char → List Char → List (List Char)
  | [], acc => [acc.reverse]
  | c :: rest, acc =>
    if c = sep then acc.reverse :: splitOnCharAux sep rest []
    else splitOnCharAux sep rest (c :: acc)

/-- JS `s.split(sep)` for a one-character separator. -/
def splitOnChar (sep : Char) (cs : List Char) : List (List Char) :=
  splitOnCharAux sep cs []

/-- Join character lists with a separator character (inverse of split). -/
def joinWithChar (sep : Char) : List (List Char) → List Char
  | [] => []
  | [x] => x
  | x :: xs => x ++ sep :: joinWithChar sep xs

/-- Does `sub` occur as a contiguous run inside `cs`?  Model of the JS
`String.prototype.includes`. -/
def includesAux (sub : List Char) : List Char → Bool
  | [] => sub.isEmpty
  | c :: rest => sub.isPrefixOf (c :: rest) || includesAux sub rest

/-- JS `s.includes(sub)`. -/
def strIncludes (s sub : String) : Bool :=
  includesAux sub.toList s.toList

/-- Remove the first occurrence of `pat` from a character list; model of the
JS `String.prototype.replace` with a string pattern and empty replacement. -/
def removeFirstAux (pat : List Char) : List Char → List Char
  | [] => []
  | c :: rest =>
    if pat.isPrefixOf (c :: rest) then (c :: rest).drop pat.length
    else c :: removeFirstAux pat rest

/-- JS `s.replace(pat, "")` (first occurrence only). -/
def removeFirst (s pat : String) : String :=
  String.mk (removeFirstAux pat.toList s.toList)

/-- JS truthiness of a nullable string: `undefined`/`null` and the empty
string are falsy. -/
def jsTruthy : Option String → Bool
  | none => false
  | some s => !(s = "")

/-- JS `a || b` on nullable strings: yields `a` when `a` is truthy,
otherwise `b` unchanged. -/
def jsOrOpt (a b : Option String) : Option String :=
  if jsTruthy a then a else b

/-- JS `a || b` where the fallback `b` is a plain string. -/
def jsOrStr (a : Option String) (b : String) : String :=
  if jsTruthy a then a.getD "" else b

/-- JS string coercion of a nullable string, as performed by functions such
as `String.prototype.includes`: `null` prints as the text "null". -/
def nullableToString : Option String → String
  | some s => s
  | none => "null"

/-- JS `arr.join(",")`. -/
def joinComma : List String → String
  | [] => ""
  | [x] => x
  | x :: xs => x ++ "," ++ joinComma xs

/-! ## URL and query-string model

Model of the WHATWG `URL` and `URLSearchParams` built-ins for the inputs the
two lambdas can feed them: a valid scheme is required (else the constructor
throws), the six special schemes accept any number of slashes before a
mandatory authority (empty only for `file`), other schemes take either a
`//authority` form or an opaque path, and the query part is parsed as
`application/x-www-form-urlencoded` with plus-to-space and UTF-8
percent-decoding; input whitespace is stripped as the URL parser does.
Not modelled (out of the inputs of interest): dot-segment normalisation,
percent-encoding of path characters, backslash-as-slash in special
schemes, and host canonicalisation (the host never reaches the program
logic, which only reads `pathname` and `search`). -/

structure Url where
  pathname : String
  search : String
  deriving Repr, DecidableEq

/-- The six WHATWG special schemes. -/
def specialSchemes : List String := ["http", "https", "ws", "wss", "ftp", "file"]

/-- First character of a URL scheme: an ASCII letter. -/
def isSchemeStartChar (c : Char) : Bool :=
  decide (('a' ≤ c ∧ c ≤ 'z') ∨ ('A' ≤ c ∧ c ≤ 'Z'))

/-- Subsequent characters of a URL scheme. -/
def isSchemeChar (c : Char) : Bool :=
  isSchemeStartChar c || decide ('0' ≤ c ∧ c ≤ '9') || c == '+' || c == '-' || c == '.'

/-- The search component (with its leading '?', dropped when the query is
empty), read off the remainder that follows the path. -/
def searchOf (afterPath : List Char) : List Char :=
  match afterPath with
  | '?' :: _ =>
    let s := afterPath.takeWhile (fun c => !(c == '#'))
    if s = ['?'] then [] else s
  | _ => []

/-- Pathname and search of a URL with an authority, given the remainder
after the authority.  A special-scheme URL with an empty path serialises
its pathname as "/", a non-special one keeps it empty. -/
def hierarchicalTail (isSpecial : Bool) (afterAuthority : List Char) : Url :=
  let pathname :=
    match afterAuthority with
    | '/' :: _ => afterAuthority.takeWhile (fun c => !(c == '?' || c == '#'))
    | _ => if isSpecial then ['/'] else []
  let afterPath :=
    match afterAuthority with
    | '/' :: _ => afterAuthority.dropWhile (fun c => !(c == '?' || c == '#'))
    | other => other
  { pathname := String.mk pathname, search := String.mk (searchOf afterPath) }

/-- Parse a URL from its characters.  A scheme (ASCII letter, then scheme
characters, case-insensitive) followed by ':' is mandatory.  For a special
scheme any run of slashes (also none) precedes the authority, which must be
non-empty except for `file`; for any other scheme, two slashes introduce an
authority and anything else is an opaque path running to '?' or '#'. -/
def parseUrlChars (cs : List Char) : Option Url :=
  let schemeChars := cs.takeWhile (fun c => !(c == ':'))
  let rest := cs.dropWhile (fun c => !(c == ':'))
  match rest with
  | ':' :: afterColon =>
    if !(isSchemeStartChar (schemeChars.headD ' ')) then none
    else if !(schemeChars.all isSchemeChar) then none
    else
      let scheme := String.mk (schemeChars.map Char.toLower)
      if specialSchemes.contains scheme then
        let afterSlashes := afterColon.dropWhile (fun c => c == '/')
        let authority := afterSlashes.takeWhile (fun c => !(c == '/' || c == '?' || c == '#'))
        if authority.isEmpty && !(scheme = "file") then none
        else
          some (hierarchicalTail true
            (afterSlashes.dropWhile (fun c => !(c == '/' || c == '?' || c == '#'))))
      else
        match afterColon with
        | '/' :: '/' :: afterSlashes =>
          some (hierarchicalTail false
            (afterSlashes.dropWhile (fun c => !(c == '/' || c == '?' || c == '#'))))
        | _ =>
          let pathChars := afterColon.takeWhile (fun c => !(c == '?' || c == '#'))
          let afterPath := afterColon.dropWhile (fun c => !(c == '?' || c == '#'))
          some { pathname := String.mk pathChars, search := String.mk (searchOf afterPath) }
  | _ => none

/-- JS `new URL(s)`, `none` when the constructor would throw.  As the
WHATWG parser does, leading and trailing C0 controls and spaces are
trimmed and every embedded tab, line feed and carriage return is removed
before parsing. -/
def parseUrl (s : String) : Option Url :=
  let cs := s.toList
  let cs := cs.dropWhile (fun c => decide (c.toNat ≤ 0x20))
  let cs := (cs.reverse.dropWhile (fun c => decide (c.toNat ≤ 0x20))).reverse
  let cs := cs.filter (fun c => !(c.toNat == 9 || c.toNat == 10 || c.toNat == 13))
  parseUrlChars cs

/-- Value of an ASCII hex digit. -/
def hexVal (c : Char) : Option Nat :=
  if '0' ≤ c ∧ c ≤ '9' then some (c.toNat - 48)
  else if 'A' ≤ c ∧ c ≤ 'F' then some (c.toNat - 55)
  else if 'a' ≤ c ∧ c ≤ 'f' then some (c.toNat - 87)
  else none

/-- UTF-8 encoding of one character, as a byte list. -/
def utf8Encode (c : Char) : List Nat :=
  let n := c.toNat
  if n < 0x80 then [n]
  else if n < 0x800 then [0xC0 + n / 0x40, 0x80 + n % 0x40]
  else if n < 0x10000 then
    [0xE0 + n / 0x1000, 0x80 + (n / 0x40) % 0x40, 0x80 + n % 0x40]
  else
    [0xF0 + n / 0x40000, 0x80 + (n / 0x1000) % 0x40, 0x80 + (n / 0x40) % 0x40,
      0x80 + n % 0x40]

/-- The replacement character emitted for ill-formed UTF-8. -/
def uFFFD : Char := Char.ofNat 0xFFFD

/-- Standard UTF-8 decoding with replacement: well-formed sequences (with
the usual overlong/surrogate/range boundaries on the second byte) decode to
their code point; on an ill-formed byte the replacement character is
emitted and decoding resumes at the first unconsumed byte.  The fuel
argument (instantiated with the byte-list length, an upper bound since
every step consumes at least one byte) only makes the recursion
structural. -/
def utf8DecodeAux : Nat → List Nat → List Char
  | 0, _ => []
  | _, [] => []
  | fuel + 1, b1 :: rest =>
    if b1 < 0x80 then Char.ofNat b1 :: utf8DecodeAux fuel rest
    else if b1 < 0xC2 then uFFFD :: utf8DecodeAux fuel rest
    else if b1 ≤ 0xDF then
      match rest with
      | [] => [uFFFD]
      | b2 :: rest2 =>
        if 0x80 ≤ b2 ∧ b2 ≤ 0xBF then
          Char.ofNat ((b1 - 0xC0) * 0x40 + (b2 - 0x80)) :: utf8DecodeAux fuel rest2
        else uFFFD :: utf8DecodeAux fuel rest
    else if b1 ≤ 0xEF then
      match rest with
      | [] => [uFFFD]
      | b2 :: rest2 =>
        if (if b1 = 0xE0 then 0xA0 else 0x80) ≤ b2 ∧ b2 ≤ (if b1 = 0xED then 0x9F else 0xBF) then
          match rest2 with
          | [] => [uFFFD]
          | b3 :: rest3 =>
            if 0x80 ≤ b3 ∧ b3 ≤ 0xBF then
              Char.ofNat ((b1 - 0xE0) * 0x1000 + (b2 - 0x80) * 0x40 + (b3 - 0x80)) ::
                utf8DecodeAux fuel rest3
            else uFFFD :: utf8DecodeAux fuel rest2
        else uFFFD :: utf8DecodeAux fuel rest
    else if b1 ≤ 0xF4 then
      match rest with
      | [] => [uFFFD]
      | b2 :: rest2 =>
        if (if b1 = 0xF0 then 0x90 else 0x80) ≤ b2 ∧ b2 ≤ (if b1 = 0xF4 then 0x8F else 0xBF) then
          match rest2 with
          | [] => [uFFFD]
          | b3 :: rest3 =>
            if 0x80 ≤ b3 ∧ b3 ≤ 0xBF then
              match rest3 with
              | [] => [uFFFD]
              | b4 :: rest4 =>
                if 0x80 ≤ b4 ∧ b4 ≤ 0xBF then
                  Char.ofNat ((b1 - 0xF0) * 0x40000 + (b2 - 0x80) * 0x1000 +
                    (b3 - 0x80) * 0x40 + (b4 - 0x80)) :: utf8DecodeAux fuel rest4
                else uFFFD :: utf8DecodeAux fuel rest3
            else uFFFD :: utf8DecodeAux fuel rest2
        else uFFFD :: utf8DecodeAux fuel rest
    else uFFFD :: utf8DecodeAux fuel rest

/-- UTF-8 decoding of a byte list. -/
def utf8Decode (bs : List Nat) : List Char :=
  utf8DecodeAux bs.length bs

/-- Byte sequence of one form-urlencoded token: '+' is a space, a '%'
followed by two hex digits is that byte (a '%' not so followed stays
literal), every other character contributes its UTF-8 bytes.  The fuel
argument (instantiated with the character count, an upper bound since
every step consumes at least one character) only makes the recursion
structural. -/
def formUrlBytesAux : Nat → List Char → List Nat
  | 0, _ => []
  | _, [] => []
  | fuel + 1, c :: rest =>
    if c = '+' then 0x20 :: formUrlBytesAux fuel rest
    else if c = '%' then
      match rest with
      | h1 :: h2 :: rest2 =>
        (match hexVal h1, hexVal h2 with
          | some v1, some v2 => (v1 * 16 + v2) :: formUrlBytesAux fuel rest2
          | _, _ => utf8Encode '%' ++ formUrlBytesAux fuel rest)
      | _ => utf8Encode '%' ++ formUrlBytesAux fuel rest
    else utf8Encode c ++ formUrlBytesAux fuel rest

/-- Byte sequence of one form-urlencoded token. -/
def formUrlBytes (cs : List Char) : List Nat :=
  formUrlBytesAux cs.length cs

/-- Form-urlencoded decoding of one token, as `URLSearchParams` performs on
every parsed name and value. -/
def formUrlDecode (cs : List Char) : List Char :=
  utf8Decode (formUrlBytes cs)

/-- JS `new URLSearchParams(s)`: strip one leading '?', split on '&', skip
empty segments, split each segment at its first '=', then form-urlencoded
decode each name and value. -/
def parseQuery (s : String) : List (String × String) :=
  let cs := s.toList
  let cs := match cs with | '?' :: rest => rest | l => l
  (splitOnChar '&' cs).filterMap fun kv =>
    match kv with
    | [] => none
    | _ =>
      match splitOnChar '=' kv with
      | [] => none
      | k :: vs =>
        some (String.mk (formUrlDecode k), String.mk (formUrlDecode (joinWithChar '=' vs)))

/-- JS `params.get(k)`: the value of the first pair named `k`, else null. -/
def qpGet (q : List (String × String)) (k : String) : Option String :=
  (q.find? (fun p => p.1 == k)).map (fun p => p.2)

/-- JS `url.pathname.split('/').pop()`: the last path segment. -/
def lastPathSegment (p : String) : String :=
  String.mk (((splitOnChar '/' p.toList).getLast?).getD [])

/-! ## JavaScript property lookup on the object literals

A JS object literal inherits `Object.prototype`, so indexing it with one of
the string-keyed prototype member names is a DEFINED lookup yielding an
inherited function (or, for the `__proto__` accessor, an object): truthy,
not an array, not iterable.  Every bracket lookup in the two lambdas is
keyed by externally supplied strings, so this matters and is modelled
explicitly. -/

/-- The string-keyed members every plain object inherits from
`Object.prototype`. -/
def objectProtoKeys : List String :=
  ["constructor", "hasOwnProperty", "isPrototypeOf", "propertyIsEnumerable",
   "toLocaleString", "toString", "valueOf",
   "__defineGetter__", "__defineSetter__", "__lookupGetter__", "__lookupSetter__",
   "__proto__"]

/-- Outcome of one JS bracket lookup, as far as the two lambdas can
observe it: an own array value, a truthy non-array (an inherited function
or object: surviving the falsy-default, then crashing a spread or an
`.every` call), a falsy non-undefined value (a zero length or a null
prototype: replaced by the falsy-default), undefined, or a lookup that
itself throws (the poison-pill `arguments`/`caller` accessors). -/
inductive JsLookup where
  | arr (l : List String)
  | truthyJunk
  | falsyJunk
  | undef
  | accessThrow
  deriving Repr, DecidableEq

/-! ## Shared role-to-permission table

Both lambda sources embed the identical `policies` object literal mapping a
Cognito group name to its permission strings; the Patients entries are
scoped to the own user id of the caller via a template literal (an undefined id
prints as the text "undefined"). -/

/-- The own properties of the `policies` literal of both lambdas:
permission strings granted to one group, given the user id of the caller. -/
def policies (userId : String) (group : String) : Option (List String) :=
  if group = "Administrators" then some ["*"]
  else if group = "Practitioners" then
    some ["Patient.read", "Patient.write", "Observation.read", "Observation.write"]
  else if group = "Patients" then
    some ["Patient.read?patient=" ++ userId, "Observation.read?subject=" ++ userId]
  else none

/-- The full JS lookup on the `policies` literal: own rows, then the
inherited `Object.prototype` members, then undefined. -/
def policiesLookup (userId : String) (group : String) : JsLookup :=
  match policies userId group with
  | some l => JsLookup.arr l
  | none =>
    if objectProtoKeys.contains group then JsLookup.truthyJunk
    else JsLookup.undef

/-- The reduce both lambdas run over the group list:
spreading an own (truthy) array concatenates it, an undefined lookup is
replaced by the empty array, and an inherited prototype member survives
the falsy-default and then throws when spread (it is not iterable). -/
def accumulateAllowedActions (userId : String) :
    List String → List String → Except String (List String)
  | acc, [] => Except.ok acc
  | acc, g :: rest =>
    match policiesLookup userId g with
    | JsLookup.arr l => accumulateAllowedActions userId (acc ++ l) rest
    | JsLookup.undef => accumulateAllowedActions userId acc rest
    | _ => Except.error "TypeError: spread of a non-iterable value"

/-- The allowed actions of a group list, or the error thrown while
accumulating them. -/
def allowedActionsOf (userId : String) (groups : List String) :
    Except String (List String) :=
  accumulateAllowedActions userId [] groups

/-! ## Downstream token bridge (second lambda source) -/

structure BridgeEvent where
  operationName : Option String
  datastoreEndpoint : Option String
  bearerToken : Option String
  deriving Repr, DecidableEq

/-- Result of the Cognito `getUser` call; the lambda only ever reads the
`Username` field.  The empty object `{}` returned on lookup failure is
`Username := none`. -/
structure UserInfo where
  Username : Option String
  deriving Repr, DecidableEq

/-- The `authPayload` object minted by `forwardRequestToHealthLake`. -/
structure AuthPayload where
  iss : String
  aud : String
  iat : Nat
  nbf : Nat
  exp : Nat
  isAuthorized : Bool
  scope : String
  sub : String
  deriving Repr, DecidableEq

/-- A bridge lambda response: either a structured error object
`{statusCode, body: {error, error_description}}` or the success object
`{authPayload, iamRoleARN}`. -/
inductive BridgeResult where
  | errorResp (statusCode : Nat) (error : String) (errorDescription : String)
  | success (authPayload : AuthPayload) (iamRoleARN : String)
  deriving Repr, DecidableEq

/-- Ambient configuration of the bridge lambda: the two environment
variables it reads and the current epoch second used for the timestamps. -/
structure BridgeEnv where
  healthlakeRoleArn : Option String
  oauth2ServerUrl : Option String
  now : Nat
  deriving Repr, DecidableEq

/-- The module-level binding that destructures `userInfo` out of the node
`os` module at the top of the bridge source: that field is a function
value, so reading a `Username` property off it yields undefined. -/
def osUserInfo : UserInfo := { Username := none }

/-- Collapse a caught exception to a boolean, as the try/catch wrapper of
`checkUserPermissions` does (`catch ... return false`). -/
def exceptBool (e : Except String Bool) : Bool :=
  match e with
  | Except.ok b => b
  | Except.error _ => false

/-- The own properties of the `Patient` row of
`resourceOperationPermissionsMap`. -/
def patientOpPermissions (op : String) : Option (List String) :=
  if op = "CreateResource" then some ["Patient.write"]
  else if op = "DeleteResource" then some ["Patient.write"]
  else if op = "ReadResource" then some ["Patient.read"]
  else if op = "SearchAll" then some ["Patient.read"]
  else if op = "SearchWithGet" then some ["Patient.read"]
  else if op = "SearchWithPost" then some ["Patient.read"]
  else if op = "UpdateResource" then some ["Patient.write"]
  else if op = "StartFHIRExportJobWithPost" then some ["Patient.write"]
  else none

/-- The own properties of the `Observation` row of
`resourceOperationPermissionsMap`. -/
def observationOpPermissions (op : String) : Option (List String) :=
  if op = "CreateResource" then some ["Observation.write"]
  else if op = "DeleteResource" then some ["Observation.write"]
  else if op = "ReadResource" then some ["Observation.read"]
  else if op = "SearchAll" then some ["Observation.read"]
  else if op = "SearchWithGet" then some ["Observation.read"]
  else if op = "SearchWithPost" then some ["Observation.read"]
  else if op = "UpdateResource" then some ["Observation.write"]
  else if op = "StartFHIRExportJobWithPost" then some ["Observation.write"]
  else none

/-- JS lookup on one row object literal: own operation entries, then the
inherited `Object.prototype` members (truthy non-arrays), then undefined. -/
def rowLookup (row : String → Option (List String)) (op : String) : JsLookup :=
  match row op with
  | some l => JsLookup.arr l
  | none =>
    if objectProtoKeys.contains op then JsLookup.truthyJunk
    else JsLookup.undef

/-- The `length` property of each `Object.prototype` member function: its
arity (falsy exactly when zero). -/
def protoMethodArity (k : String) : Nat :=
  if k = "toString" ∨ k = "toLocaleString" ∨ k = "valueOf" then 0
  else if k = "__defineGetter__" ∨ k = "__defineSetter__" then 2
  else 1

/-- The standard string-keyed own static members of the `Object`
constructor function (an ECMAScript 2022 realm is modelled;
engine-specific additions are out of scope), together with its own
`prototype` object — every one of them truthy. -/
def objectStaticKeys : List String :=
  ["assign", "create", "defineProperties", "defineProperty", "entries",
   "freeze", "fromEntries", "getOwnPropertyDescriptor",
   "getOwnPropertyDescriptors", "getOwnPropertyNames",
   "getOwnPropertySymbols", "getPrototypeOf", "hasOwn", "is", "isExtensible",
   "isFrozen", "isSealed", "keys", "preventExtensions", "seal",
   "setPrototypeOf", "values", "prototype"]

/-- The truthy function-valued members every function inherits from
`Function.prototype` (its own `length` and `name` are shadowed by the own
properties of the function itself). -/
def functionProtoTruthyKeys : List String :=
  ["apply", "bind", "call", "constructor", "toString"]

/-- JS lookup on an inherited prototype FUNCTION (the value obtained when
the resource key hit the `Object.prototype` member named `k`): its own
`length` is its arity (falsy only when zero), its own `name` a truthy
string, the `constructor` base — the `Object` function — additionally
exposes its truthy static members, the `arguments` and `caller`
poison-pill accessors of `Function.prototype` throw on access, the
remaining `Function.prototype` members, the `__proto__` accessor and the
inherited `Object.prototype` members are truthy non-arrays, and anything
else is undefined. -/
def functionJunkLookup (k : String) (op : String) : JsLookup :=
  if op = "length" then
    if protoMethodArity k = 0 then JsLookup.falsyJunk else JsLookup.truthyJunk
  else if op = "name" then JsLookup.truthyJunk
  else if k = "constructor" ∧ objectStaticKeys.contains op then JsLookup.truthyJunk
  else if op = "arguments" ∨ op = "caller" then JsLookup.accessThrow
  else if functionProtoTruthyKeys.contains op ∨ op = "__proto__" then JsLookup.truthyJunk
  else if objectProtoKeys.contains op then JsLookup.truthyJunk
  else JsLookup.undef

/-- JS lookup on `Object.prototype` itself (the value obtained when the
resource key was `__proto__`): its own members are truthy functions,
except that reading `__proto__` on it yields the falsy null, and anything
else is undefined. -/
def objectProtoJunkLookup (op : String) : JsLookup :=
  if op = "__proto__" then JsLookup.falsyJunk
  else if objectProtoKeys.contains op then JsLookup.truthyJunk
  else JsLookup.undef

/-- The first JS lookup of the chain
`resourceOperationPermissionsMap[resourcePath][operationName]`: the two
own rows, then the inherited `Object.prototype` members (each of which is
a DEFINED base for the second lookup), and otherwise undefined — on which
the second property read throws. -/
def resourceOperationPermissionsMap (resourcePath : String) :
    Except String (String → JsLookup) :=
  if resourcePath = "Patient" then Except.ok (rowLookup patientOpPermissions)
  else if resourcePath = "Observation" then Except.ok (rowLookup observationOpPermissions)
  else if resourcePath = "__proto__" then Except.ok objectProtoJunkLookup
  else if objectProtoKeys.contains resourcePath then
    Except.ok (functionJunkLookup resourcePath)
  else Except.error "TypeError: cannot read properties of undefined"

/-- The required permissions the source computes, combining
`resourceOperationPermissionsMap[resourcePath][operationName] || []` with
the immediately following `.every` call: an array runs the loop, a falsy
or undefined result is replaced by the empty array (vacuous every: silent
allow), a truthy non-array survives the falsy-default and then makes the
`.every` call throw, and a poison-pill access throws at the lookup
itself. -/
def requiredPermissionsLookup (resourcePath : String) (op : String) :
    Except String (List String) :=
  match resourceOperationPermissionsMap resourcePath with
  | Except.error e => Except.error e
  | Except.ok lookup =>
    match lookup op with
    | JsLookup.arr l => Except.ok l
    | JsLookup.falsyJunk => Except.ok []
    | JsLookup.undef => Except.ok []
    | JsLookup.truthyJunk =>
      Except.error "TypeError: requiredPermissions.every is not a function"
    | JsLookup.accessThrow =>
      Except.error "TypeError: restricted function property access"

/-- Does the allowed action string contain a '?', i.e. carry a scope
constraint (`action.includes('?')` in the source)? -/
def actionScoped (a : String) : Bool :=
  strIncludes a "?"

/-- JS `action.split('?')[0]`: the base permission of an entry. -/
def actionBase (a : String) : String :=
  String.mk (((splitOnChar '?' a.toList).headD []))

/-- JS `action.split('?')[1]`: the query string of a scoped entry. -/
def actionQueryString (a : String) : String :=
  String.mk (((splitOnChar '?' a.toList).drop 1).headD [])

/-- The filter predicate of the source: a scoped entry matches when its
base equals the required permission, an unscoped entry when it is equal
outright. -/
def baseMatches (permission a : String) : Bool :=
  if actionScoped a then actionBase a == permission else a == permission

/-- One pass of the for-loop body over a matched allowed action.  For a
scoped entry under `SearchWithGet` the source calls `queryParams.every`,
which does not exist on `URLSearchParams`, so evaluation throws; under the
three single-resource operations it tests whether the bound `patient` (or
else `subject`) value occurs inside the endpoint pathname; any other
operation leaves the entry unchecked. -/
def permSatisfiedBy (opName : Option String) (url : Url) (allowedAction : String) :
    Except String Bool :=
  if actionScoped allowedAction then
    let queryParams := parseQuery (actionQueryString allowedAction)
    if opName = some "SearchWithGet" then
      Except.error "TypeError: queryParams.every is not a function"
    else if opName = some "UpdateResource" || opName = some "DeleteResource"
        || opName = some "ReadResource" then
      Except.ok (strIncludes url.pathname
        (nullableToString (jsOrOpt (qpGet queryParams "patient") (qpGet queryParams "subject"))))
    else Except.ok true
  else Except.ok true

/-- The for-loop of the source over the base-matching entries: stop with
`false` at the first entry whose scope check fails, propagate a thrown
error, otherwise succeed. -/
def scanEntries (opName : Option String) (url : Url) : List String → Except String Bool
  | [] => Except.ok true
  | a :: rest =>
    match permSatisfiedBy opName url a with
    | Except.error e => Except.error e
    | Except.ok r => if r then scanEntries opName url rest else Except.ok false

/-- The body of the `requiredPermissions.every` callback: filter the
allowed actions whose base matches, fail when none does, otherwise run the
for-loop over every match. -/
def requiredPermCheck (opName : Option String) (url : Url)
    (allowedActions : List String) (permission : String) : Except String Bool :=
  if (allowedActions.filter (fun a => baseMatches permission a)).length = 0 then
    Except.ok false
  else scanEntries opName url (allowedActions.filter (fun a => baseMatches permission a))

/-- JS `Array.prototype.every` over an effectful predicate: stop with
`false` at the first falsy result, propagate a thrown error. -/
def everyPerm (f : String → Except String Bool) : List String → Except String Bool
  | [] => Except.ok true
  | p :: rest =>
    match f p with
    | Except.error e => Except.error e
    | Except.ok r => if r then everyPerm f rest else Except.ok false

/-- The body of `checkUserPermissions` up to its try/catch: list the
groups of the caller (an external Cognito call, passed as the oracle
`groupsOf`), accumulate the allowed actions (throwing when a group name
hits an inherited prototype member), allow a wildcard holder outright,
parse the endpoint URL (`new URL(undefined)` throws), take the last path
segment as the resource key, resolve the required permissions through the
two-level prototype-aware lookup, and finally run the every-loop. -/
def checkPermBody (groupsOf : Option String → Except String (List String))
    (ev : BridgeEvent) (userInfo : UserInfo) : Except String Bool :=
  match groupsOf userInfo.Username with
  | Except.error e => Except.error e
  | Except.ok userGroupsNames =>
    let userId := userInfo.Username.getD "undefined"
    match allowedActionsOf userId userGroupsNames with
    | Except.error e => Except.error e
    | Except.ok allowedActions =>
      if allowedActions.contains "*" then Except.ok true
      else
        match parseUrl (ev.datastoreEndpoint.getD "undefined") with
        | none => Except.error "TypeError: Invalid URL"
        | some url =>
          match requiredPermissionsLookup (lastPathSegment url.pathname)
              (ev.operationName.getD "undefined") with
          | Except.error e => Except.error e
          | Except.ok requiredPermissions =>
            everyPerm (requiredPermCheck ev.operationName url allowedActions)
              requiredPermissions

/-- `checkUserPermissions` of the bridge source: its whole body sits in a
try/catch that converts any thrown error into a `false` verdict. -/
def checkUserPermissions (groupsOf : Option String → Except String (List String))
    (ev : BridgeEvent) (userInfo : UserInfo) : Bool :=
  exceptBool (checkPermBody groupsOf ev userInfo)

/-- `getUserInfo` of the bridge source: return the empty object for a falsy
bearer token, otherwise ask Cognito (the `directory` oracle) for the user,
converting a lookup failure into the empty object. -/
def getUserInfo (directory : String → Option UserInfo) (ev : BridgeEvent) : UserInfo :=
  if jsTruthy ev.bearerToken then
    match directory (ev.bearerToken.getD "") with
    | some u => u
    | none => { Username := none }
  else { Username := none }

/-- `forwardRequestToHealthLake` of the bridge source: reject a falsy
endpoint or token with `invalid_request`, reject a falsy role
configuration with `server_error`, otherwise mint the auth payload with a
one-hour lifetime and the configured execution role. -/
def forwardRequestToHealthLake (env : BridgeEnv) (ev : BridgeEvent)
    (userInfo : UserInfo) : BridgeResult :=
  if !(jsTruthy ev.datastoreEndpoint) || !(jsTruthy ev.bearerToken) then
    BridgeResult.errorResp 400 "invalid_request" "Missing datastoreEndpoint or bearerToken"
  else
    let currentTimeInSeconds := env.now
    let expirationTimeInSeconds := currentTimeInSeconds + 3600
    let scope := "system/*.*"
    if !(jsTruthy env.healthlakeRoleArn) then
      BridgeResult.errorResp 500 "server_error" "HealthLake IAM role configuration is missing"
    else
      BridgeResult.success
        { iss := jsOrStr env.oauth2ServerUrl "https://main-oauth2-server-link.com/oauth2/token"
          aud := ev.datastoreEndpoint.getD ""
          iat := currentTimeInSeconds
          nbf := currentTimeInSeconds
          exp := expirationTimeInSeconds
          isAuthorized := true
          scope := scope
          sub := jsOrStr userInfo.Username "anonymous" }
        (env.healthlakeRoleArn.getD "")

/-- `handleSearchAll` of the bridge source: its signature drops the
resolved user-info argument, so the `userInfo` it forwards resolves to the
module-level binding destructured from the `os` module. -/
def handleSearchAll (env : BridgeEnv) (ev : BridgeEvent) : BridgeResult :=
  forwardRequestToHealthLake env ev osUserInfo

/-- `handleSearchWithGet` of the bridge source. -/
def handleSearchWithGet (env : BridgeEnv) (ev : BridgeEvent) (ui : UserInfo) : BridgeResult :=
  forwardRequestToHealthLake env ev ui

/-- `handleCreateResource` of the bridge source. -/
def handleCreateResource (env : BridgeEnv) (ev : BridgeEvent) (ui : UserInfo) : BridgeResult :=
  forwardRequestToHealthLake env ev ui

/-- `handleDeleteResource` of the bridge source. -/
def handleDeleteResource (env : BridgeEnv) (ev : BridgeEvent) (ui : UserInfo) : BridgeResult :=
  forwardRequestToHealthLake env ev ui

/-- `handleReadResource` of the bridge source. -/
def handleReadResource (env : BridgeEnv) (ev : BridgeEvent) (ui : UserInfo) : BridgeResult :=
  forwardRequestToHealthLake env ev ui

/-- `handleSearchWithPost` of the bridge source. -/
def handleSearchWithPost (env : BridgeEnv) (ev : BridgeEvent) (ui : UserInfo) : BridgeResult :=
  forwardRequestToHealthLake env ev ui

/-- `handleStartFHIRExportJobWithPost` of the bridge source. -/
def handleStartFHIRExportJobWithPost (env : BridgeEnv) (ev : BridgeEvent)
    (ui : UserInfo) : BridgeResult :=
  forwardRequestToHealthLake env ev ui

/-- `handleUpdateResource` of the bridge source. -/
def handleUpdateResource (env : BridgeEnv) (ev : BridgeEvent) (ui : UserInfo) : BridgeResult :=
  forwardRequestToHealthLake env ev ui

/-- The `switch (event.operationName)` of the bridge handler, in source
order, with the `unsupported_operation` default. -/
def dispatchOperation (env : BridgeEnv) (ev : BridgeEvent) (ui : UserInfo)
    (op : String) : BridgeResult :=
  if op = "CreateResource" then handleCreateResource env ev ui
  else if op = "DeleteResource" then handleDeleteResource env ev ui
  else if op = "ReadResource" then handleReadResource env ev ui
  else if op = "SearchAll" then handleSearchAll env ev
  else if op = "SearchWithGet" then handleSearchWithGet env ev ui
  else if op = "SearchWithPost" then handleSearchWithPost env ev ui
  else if op = "StartFHIRExportJobWithPost" then handleStartFHIRExportJobWithPost env ev ui
  else if op = "UpdateResource" then handleUpdateResource env ev ui
  else BridgeResult.errorResp 400 "unsupported_operation"
    ("Operation " ++ op ++ " is not supported")

/-- The exported handler of the bridge source: resolve the user, run the
permission check (answering 403 `access_denied` on a denial), then
dispatch on the operation name, answering 400 `invalid_request` when the
name is falsy. -/
def bridgeHandler (env : BridgeEnv) (directory : String → Option UserInfo)
    (groupsOf : Option String → Except String (List String))
    (ev : BridgeEvent) : BridgeResult :=
  let userInfo := getUserInfo directory ev
  let hasPermission := checkUserPermissions groupsOf ev userInfo
  if !hasPermission then
    BridgeResult.errorResp 403 "access_denied"
      "User does not have permission to perform this operation"
  else if jsTruthy ev.operationName then
    dispatchOperation env ev userInfo (ev.operationName.getD "")
  else
    BridgeResult.errorResp 400 "invalid_request" "No valid operationName provided"

/-! ## Gateway authorizer (first lambda source) -/

structure GatewayEvent where
  authorizationToken : Option String
  methodArn : String
  deriving Repr, DecidableEq

/-- Decoded JWT header; the lambda only reads `kid`. -/
structure JwtHeader where
  kid : Option String
  deriving Repr, DecidableEq

/-- The claims of a Cognito token that the lambda reads.  The `sub` claim
is always present in a Cognito token; the others may be absent. -/
structure TokenPayload where
  sub : String
  email : Option String
  preferredUsername : Option String
  cognitoGroups : Option (List String)
  deriving Repr, DecidableEq

/-- Result of the complete `jwt.decode` call: null for garbage, otherwise
an object whose header or payload part may be missing. -/
structure DecodedToken where
  header : Option JwtHeader
  payload : Option TokenPayload
  deriving Repr, DecidableEq

/-- The external cryptographic operations of the authorizer, as oracles:
`decode` is `jwt.decode`, `getKey` the JWKS signing-key fetch (rejecting a
missing key), and `verify` the RS256 `jwt.verify` (rejecting a bad
signature, expiry, or algorithm). -/
structure GatewayCrypto where
  decode : String → Option DecodedToken
  getKey : Option String → Except String String
  verify : String → String → Except String TokenPayload

inductive Effect where
  | allow
  | deny
  deriving Repr, DecidableEq

/-- One statement of the IAM policy document the authorizer emits. -/
structure PolicyStatement where
  action : String
  effect : Effect
  resource : String
  deriving Repr, DecidableEq

/-- The context attributes forwarded on an allow. -/
structure GatewayContext where
  userId : String
  userName : String
  groups : String
  scopes : String
  deriving Repr, DecidableEq

/-- The authorizer response object; the deny branch carries no context. -/
structure AuthResponse where
  principalId : String
  statement : PolicyStatement
  context : Option GatewayContext
  deriving Repr, DecidableEq

/-- The body of the authorizer handler up to its try/catch: reject a falsy
token, strip a `Bearer` marker, decode, reject a missing header or
payload, fetch the signing key, verify, accumulate the permission strings
(a group name hitting an inherited prototype member makes the spread
throw), then build the Allow response for exactly the requested method
ARN, forwarding identity attributes.  An empty permission list only logs
a warning and still allows. -/
def gatewayBody (crypto : GatewayCrypto) (ev : GatewayEvent) : Except String AuthResponse :=
  if !(jsTruthy ev.authorizationToken) then Except.error "Unauthorized"
  else
    let token := removeFirst (ev.authorizationToken.getD "") "Bearer "
    match crypto.decode token with
    | none => Except.error "Invalid token format"
    | some decoded =>
      match decoded.header with
      | none => Except.error "Invalid token format"
      | some header =>
        match decoded.payload with
        | none => Except.error "Invalid token format"
        | some _ =>
          match crypto.getKey header.kid with
          | Except.error e => Except.error e
          | Except.ok signingKey =>
            match crypto.verify token signingKey with
            | Except.error e => Except.error e
            | Except.ok verifiedToken =>
              let userId := verifiedToken.sub
              let userName := jsOrStr verifiedToken.email
                (jsOrStr verifiedToken.preferredUsername verifiedToken.sub)
              let userGroups := verifiedToken.cognitoGroups.getD []
              match allowedActionsOf userId userGroups with
              | Except.error e => Except.error e
              | Except.ok allowedActions =>
                Except.ok
                  { principalId := userName
                    statement :=
                      { action := "execute-api:Invoke"
                        effect := Effect.allow
                        resource := ev.methodArn }
                    context := some
                      { userId := userId
                        userName := userName
                        groups := joinComma userGroups
                        scopes := joinComma allowedActions } }

/-- The standardized deny policy of the catch branch, on the requested
method ARN and with no context. -/
def gatewayDenyResponse (ev : GatewayEvent) : AuthResponse :=
  { principalId := "unauthorized"
    statement :=
      { action := "execute-api:Invoke"
        effect := Effect.deny
        resource := ev.methodArn }
    context := none }

/-- The exported authorizer handler: the whole body sits in a try/catch
whose catch branch returns the standardized deny policy, so the handler is
total and never propagates an error. -/
def gatewayHandler (crypto : GatewayCrypto) (ev : GatewayEvent) : AuthResponse :=
  match gatewayBody crypto ev with
  | Except.ok r => r
  | Except.error _ => gatewayDenyResponse ev

/-! ## Spec-side comparison definitions

These follow the words of the specification, not the source, and exist only
to be compared against the embedded code: the spec says a required
permission is satisfiable when SOME allowed entry matches it (an exact
unscoped match, or a scoped entry whose base matches and whose constraint
holds), with the constraint being parameter PRESENCE for search-style
operations and a path-segment occurrence of the bound value for
single-resource operations. -/

/-- Spec-side scope-constraint check of one scoped entry. -/
def specScopeConstraintHolds (opName : Option String) (url : Url) (a : String) : Bool :=
  let qp := parseQuery (actionQueryString a)
  if opName = some "SearchWithGet" then
    let endpointQuery := parseQuery url.search
    qp.all (fun p => ((endpointQuery.find? (fun q => q.1 == p.1)).isSome : Bool))
  else if opName = some "UpdateResource" || opName = some "DeleteResource"
      || opName = some "ReadResource" then
    ((splitOnChar '/' url.pathname.toList).map String.mk).contains
      (nullableToString (jsOrOpt (qpGet qp "patient") (qpGet qp "subject")))
  else true

/-- Spec-side satisfiability of one required permission: some allowed
entry matches. -/
def specPermSatisfiable (opName : Option String) (url : Url)
    (allowed : List String) (permission : String) : Bool :=
  allowed.any fun a =>
    if actionScoped a then
      actionBase a == permission && specScopeConstraintHolds opName url a
    else a == permission

/-- Spec-side permission accumulation, following the spec words: the
union of the entries for all of the groups of the principal, unknown group
names contributing nothing (not an error). -/
def specAllowedActions (userId : String) (groups : List String) : List String :=
  groups.flatMap (fun g => (policies userId g).getD [])

/-- Spec-side required-permission table: the own rows only; a pair absent
from the table is a configuration error, not a silent allow. -/
def specRequiredPermissions (resourcePath : String) (op : String) :
    Option (List String) :=
  if resourcePath = "Patient" then patientOpPermissions op
  else if resourcePath = "Observation" then observationOpPermissions op
  else none

/-- Spec-side authorization verdict, sharing the resource-key derivation
and the own permission tables with the embedded code so that only the
matching algorithm differs: a wildcard holder is allowed, a missing table
entry is a configuration error (deny), and otherwise EVERY required
permission must be satisfiable by SOME allowed entry. -/
def specAuthorized (groups : List String) (username : Option String)
    (ev : BridgeEvent) : Bool :=
  let userId := username.getD "undefined"
  let allowed := specAllowedActions userId groups
  allowed.contains "*" ||
    match parseUrl (ev.datastoreEndpoint.getD "undefined") with
    | none => false
    | some url =>
      match specRequiredPermissions (lastPathSegment url.pathname)
          (ev.operationName.getD "undefined") with
      | none => false
      | some reqs =>
        reqs.all (fun P => specPermSatisfiable ev.operationName url allowed P)

/-! ## Declarative characterization of the embedded permission check -/

/-- Boolean restatement of the per-entry scope check of the code: a scoped
entry passes under the three single-resource operations exactly when the
bound value occurs inside the endpoint pathname, never passes under
`SearchWithGet` (the source throws there), and passes vacuously otherwise;
unscoped entries always pass. -/
def constraintOk (opName : Option String) (url : Url) (a : String) : Bool :=
  if actionScoped a then
    let queryParams := parseQuery (actionQueryString a)
    if opName = some "SearchWithGet" then false
    else if opName = some "UpdateResource" || opName = some "DeleteResource"
        || opName = some "ReadResource" then
      strIncludes url.pathname
        (nullableToString (jsOrOpt (qpGet queryParams "patient") (qpGet queryParams "subject")))
    else true
  else true

/-- Declarative verdict that the embedded `checkUserPermissions` is proved
to compute: the allowed-action accumulation must succeed (a group name
hitting an inherited prototype member denies); a wildcard holder is then
allowed; otherwise the endpoint URL must parse and the two-level
prototype-aware required-permission lookup must yield an array (an
inherited resource key with an unknown operation name yields the empty
array — a silent allow; a truthy inherited value or a poison-pill access
denies; an unknown resource key denies), and every required permission
must have at least one base-matching allowed entry while EVERY
base-matching scoped entry passes its scope check — one failing scoped
entry vetoes the permission even when an exact unscoped match is also
present. -/
def declAuthorized (groups : List String) (username : Option String)
    (ev : BridgeEvent) : Bool :=
  match allowedActionsOf (username.getD "undefined") groups with
  | Except.error _ => false
  | Except.ok allowed =>
    allowed.contains "*" ||
      match parseUrl (ev.datastoreEndpoint.getD "undefined") with
      | none => false
      | some url =>
        match requiredPermissionsLookup (lastPathSegment url.pathname)
            (ev.operationName.getD "undefined") with
        | Except.error _ => false
        | Except.ok reqs =>
          reqs.all fun P =>
            allowed.any (fun a => baseMatches P a) &&
            (allowed.filter (fun a => baseMatches P a)).all
              (fun a => constraintOk ev.operationName url a)

/-! ## Lemmas about the embedded permission check -/

@[simp] theorem exceptBool_ok (b : Bool) : exceptBool (Except.ok b) = b := rfl

@[simp] theorem exceptBool_error (e : String) : exceptBool (Except.error e) = false := rfl

/-- The caught boolean of one for-loop pass agrees with the declarative
per-entry scope check. -/
theorem exceptBool_permSatisfiedBy (opName : Option String) (url : Url) (a : String) :
    exceptBool (permSatisfiedBy opName url a) = constraintOk opName url a := by
  unfold permSatisfiedBy constraintOk
  split_ifs <;> rfl

/-- The for-loop over matched entries succeeds exactly when every entry
passes the declarative scope check. -/
theorem exceptBool_scanEntries (opName : Option String) (url : Url) (l : List String) :
    exceptBool (scanEntries opName url l) = l.all (fun a => constraintOk opName url a) := by
  induction l with
  | nil => rfl
  | cons a rest ih =>
    simp only [scanEntries, List.all_cons]
    cases hp : permSatisfiedBy opName url a with
    | error e =>
      have hc : constraintOk opName url a = false := by
        rw [← exceptBool_permSatisfiedBy, hp]
        rfl
      simp [hc]
    | ok r =>
      cases r with
      | false =>
        have hc : constraintOk opName url a = false := by
          rw [← exceptBool_permSatisfiedBy, hp]
          rfl
        simp [hc]
      | true =>
        have hc : constraintOk opName url a = true := by
          rw [← exceptBool_permSatisfiedBy, hp]
          rfl
        simpa [hc] using ih

/-- One required permission passes (after the catch) exactly when some
allowed entry base-matches it and every base-matching entry passes the
declarative scope check. -/
theorem exceptBool_requiredPermCheck (opName : Option String) (url : Url)
    (allowed : List String) (permission : String) :
    exceptBool (requiredPermCheck opName url allowed permission) =
      (allowed.any (fun a => baseMatches permission a) &&
        (allowed.filter (fun a => baseMatches permission a)).all
          (fun a => constraintOk opName url a)) := by
  unfold requiredPermCheck
  by_cases h : (allowed.filter (fun a => baseMatches permission a)).length = 0
  · rw [if_pos h]
    have hnil : allowed.filter (fun a => baseMatches permission a) = [] :=
      List.length_eq_zero.mp h
    have hany : allowed.any (fun a => baseMatches permission a) = false := by
      rw [List.any_eq_false]
      intro a ha hpa
      have : a ∈ allowed.filter (fun a => baseMatches permission a) :=
        List.mem_filter.mpr ⟨ha, hpa⟩
      simp [hnil] at this
    simp [hany]
  · rw [if_neg h]
    have hne : allowed.filter (fun a => baseMatches permission a) ≠ [] := by
      intro hcon
      exact h (by simp [hcon])
    obtain ⟨x, hx⟩ := List.exists_mem_of_ne_nil _ hne
    have hx' := List.mem_filter.mp hx
    have hany : allowed.any (fun a => baseMatches permission a) = true :=
      List.any_eq_true.mpr ⟨x, hx'.1, hx'.2⟩
    rw [exceptBool_scanEntries, hany, Bool.true_and]

/-- The effectful every-loop collapses, after the catch, to a plain
conjunction of the caught per-element verdicts. -/
theorem exceptBool_everyPerm (f : String → Except String Bool) (l : List String) :
    exceptBool (everyPerm f l) = l.all (fun p => exceptBool (f p)) := by
  induction l with
  | nil => rfl
  | cons p rest ih =>
    simp only [everyPerm, List.all_cons]
    cases hf : f p with
    | error e => simp
    | ok r =>
      cases r with
      | false => simp
      | true => simpa using ih

/-- When no group name collides with an inherited prototype member, the
accumulating reduce succeeds and produces the concatenation of the own
policy rows. -/
theorem accumulateAllowedActions_clean (uid : String) (gs : List String)
    (acc : List String) (hclean : ∀ g ∈ gs, ¬ g ∈ objectProtoKeys) :
    accumulateAllowedActions uid acc gs =
      Except.ok (acc ++ gs.flatMap (fun g => (policies uid g).getD [])) := by
  induction gs generalizing acc with
  | nil => simp [accumulateAllowedActions]
  | cons g rest ih =>
    have hg : ¬ g ∈ objectProtoKeys := hclean g (by simp)
    have hrest : ∀ x ∈ rest, ¬ x ∈ objectProtoKeys := fun x hx => hclean x (by simp [hx])
    simp only [accumulateAllowedActions, policiesLookup]
    cases hpol : policies uid g with
    | some l => simp [hpol, ih _ hrest, List.append_assoc]
    | none => simp [hg, hpol, ih _ hrest]

/-- Clean-groups form of `allowedActionsOf`. -/
theorem allowedActionsOf_clean (uid : String) (gs : List String)
    (hclean : ∀ g ∈ gs, ¬ g ∈ objectProtoKeys) :
    allowedActionsOf uid gs =
      Except.ok (gs.flatMap (fun g => (policies uid g).getD [])) := by
  unfold allowedActionsOf
  simpa using accumulateAllowedActions_clean uid gs [] hclean

/-! ## Concrete oracles and events used by the closed theorems -/

/-- A directory in which the access token "token-P1" belongs to user P1. -/
def patientDirectory : String → Option UserInfo := fun t =>
  if t = "token-P1" then some { Username := some "P1" } else none

/-- A group listing in which user P1 is only in the Patients group. -/
def patientsGroupsOf : Option String → Except String (List String) := fun u =>
  if u = some "P1" then Except.ok ["Patients"] else Except.error "UserNotFoundException"

/-- A group listing in which user P1 is in Practitioners and Patients. -/
def practitionerPatientGroupsOf : Option String → Except String (List String) := fun u =>
  if u = some "P1" then Except.ok ["Practitioners", "Patients"]
  else Except.error "UserNotFoundException"

/-- The user-info object for user P1. -/
def patientUi : UserInfo := { Username := some "P1" }

/-- A directory in which the access token "token-A" belongs to user A1. -/
def adminDirectory : String → Option UserInfo := fun t =>
  if t = "token-A" then some { Username := some "A1" } else none

/-- A group listing in which user A1 is an Administrator. -/
def adminGroupsOf : Option String → Except String (List String) := fun u =>
  if u = some "A1" then Except.ok ["Administrators"] else Except.error "UserNotFoundException"

/-- A bridge environment with the execution role configured and the clock
at epoch second 1000. -/
def demoEnv : BridgeEnv :=
  { healthlakeRoleArn := some "arn:aws:iam::123456789012:role/HealthLakeRole"
    oauth2ServerUrl := none
    now := 1000 }

/-- A ReadResource call whose endpoint path ends in Patient/P1 (the
own record of the caller). -/
def readOwnPatientEvent : BridgeEvent :=
  { operationName := some "ReadResource"
    datastoreEndpoint :=
      some "https://healthlake.us-east-1.amazonaws.com/datastore/d1/r4/Patient/P1"
    bearerToken := some "token-P1" }

/-- A ReadResource call whose endpoint path ends in Patient/P2 (another
record of another patient). -/
def readOtherPatientEvent : BridgeEvent :=
  { operationName := some "ReadResource"
    datastoreEndpoint :=
      some "https://healthlake.us-east-1.amazonaws.com/datastore/d1/r4/Patient/P2"
    bearerToken := some "token-P1" }

/-- A ReadResource call whose endpoint path ends in the bare resource type
`Patient` (so that the permission-table lookup succeeds). -/
def readPatientBaseEvent : BridgeEvent :=
  { operationName := some "ReadResource"
    datastoreEndpoint := some "https://healthlake.us-east-1.amazonaws.com/Patient"
    bearerToken := some "token-P1" }

/-- A SearchAll call with no datastore endpoint in the input. -/
def searchAllMissingEndpointEvent : BridgeEvent :=
  { operationName := some "SearchAll"
    datastoreEndpoint := none
    bearerToken := some "token-P1" }

/-- The same missing-endpoint SearchAll call issued by the admin user. -/
def adminMissingEndpointEvent : BridgeEvent :=
  { operationName := some "SearchAll"
    datastoreEndpoint := none
    bearerToken := some "token-A" }

/-! ## Claim theorems -/

/-- C1: the spec states that a Patients-group principal with subjectId P1
is authorized for ReadResource on a path ending in Patient/P1 and denied
on Patient/P2.  In the code, the permission table is indexed with the LAST
path segment — the resource id, not the resource type — so the lookup is
undefined, the property read on undefined throws, the catch converts the
throw to a denial, and BOTH requests are denied: the claimed allow of the
own-record read never happens. -/
theorem c1_patients_read_denied_for_both_paths :
    checkUserPermissions patientsGroupsOf readOwnPatientEvent patientUi = false ∧
    checkUserPermissions patientsGroupsOf readOtherPatientEvent patientUi = false :=
  ⟨rfl, rfl⟩

/-- C2 counterexample: user P1 is in Practitioners (granting the unscoped
entry `Patient.read`) and in Patients (granting the scoped entry
`Patient.read?patient=P1`).  For ReadResource on the path `/Patient` the
spec-side rule is satisfied — the unscoped entry is an exact match for the
required permission `Patient.read` — yet the code denies, because its
for-loop also checks the scoped entry, whose bound value P1 does not occur
in the path, and one failing scoped entry vetoes the permission. -/
theorem c2_counterexample_scoped_entry_vetoes_unscoped_match :
    specAuthorized ["Practitioners", "Patients"] (some "P1") readPatientBaseEvent = true ∧
    checkUserPermissions practitionerPatientGroupsOf readPatientBaseEvent patientUi = false :=
  ⟨rfl, rfl⟩

/-- C2 (amended): the authorization verdict of `checkUserPermissions`
equals `declAuthorized`: the allowed-action accumulation must succeed (a
group name hitting an inherited prototype member denies) and the
two-level prototype-aware required-permission lookup must yield an array
(inherited resource keys with plain operation names give the empty array,
a silent allow; inherited row keys and poison-pill accesses deny), and
then every required permission needs at least one base-matching allowed
entry AND every base-matching scoped entry must pass its scope check (a
failing scoped entry vetoes even when an exact unscoped match exists; a
scoped entry under SearchWithGet always fails because its evaluation
throws). -/
theorem c2_checkUserPermissions_eq_declAuthorized
    (groupsOf : Option String → Except String (List String))
    (ev : BridgeEvent) (ui : UserInfo) (gs : List String)
    (h : groupsOf ui.Username = Except.ok gs) :
    checkUserPermissions groupsOf ev ui = declAuthorized gs ui.Username ev := by
  unfold checkUserPermissions checkPermBody declAuthorized
  rw [h]
  cases hacts : allowedActionsOf (ui.Username.getD "undefined") gs with
  | error e => simp [hacts]
  | ok allowed =>
    simp only [hacts]
    by_cases hstar : allowed.contains "*" = true
    · have hmem : "*" ∈ allowed := by simpa using hstar
      simp [hmem]
    · rw [Bool.not_eq_true] at hstar
      simp only [hstar, Bool.false_eq_true, if_false, Bool.false_or]
      cases hurl : parseUrl (ev.datastoreEndpoint.getD "undefined") with
      | none => simp [hurl]
      | some url =>
        cases hreq : requiredPermissionsLookup (lastPathSegment url.pathname)
            (ev.operationName.getD "undefined") with
        | error e => simp [hreq]
        | ok reqs =>
          simp only [hreq, exceptBool_everyPerm, exceptBool_requiredPermCheck]

/-- Witness for the amended C2 theorem at a concrete input. -/
theorem c2_checkUserPermissions_eq_declAuthorized_witness :
    practitionerPatientGroupsOf patientUi.Username =
      Except.ok ["Practitioners", "Patients"] ∧
    checkUserPermissions practitionerPatientGroupsOf readPatientBaseEvent patientUi =
      declAuthorized ["Practitioners", "Patients"] patientUi.Username readPatientBaseEvent :=
  ⟨rfl, c2_checkUserPermissions_eq_declAuthorized practitionerPatientGroupsOf
    readPatientBaseEvent patientUi ["Practitioners", "Patients"] rfl⟩

/-- A group listing in which user A1 is an Administrator but also carries
a group named after an inherited `Object.prototype` member. -/
def adminProtoGroupsOf : Option String → Except String (List String) := fun u =>
  if u = some "A1" then Except.ok ["Administrators", "toString"]
  else Except.error "UserNotFoundException"

/-- C4 counterexample: a principal whose listed groups are
[Administrators, toString] is DENIED: the accumulating reduce reaches the
group name `toString`, the `policies` lookup returns the inherited
`Object.prototype.toString` function (truthy, so the falsy-default keeps
it), the spread throws, and the catch converts the throw into a denial —
before the wildcard test is ever reached. -/
theorem c4_counterexample_proto_group_denies_admin :
    "Administrators" ∈ ["Administrators", "toString"] ∧
    checkUserPermissions adminProtoGroupsOf adminMissingEndpointEvent
      (UserInfo.mk (some "A1")) = false :=
  ⟨by simp, rfl⟩

/-- C4 (amended): a principal whose (freshly listed) groups include
Administrators and contain no name of an inherited `Object.prototype`
member holds the wildcard action, and the wildcard test precedes the URL
parse and the table lookup, so the check allows every operation name and
every endpoint — including resource types absent from the permission
table. -/
theorem c4_administrators_authorized_without_proto_groups
    (groupsOf : Option String → Except String (List String))
    (ev : BridgeEvent) (ui : UserInfo) (gs : List String)
    (h : groupsOf ui.Username = Except.ok gs)
    (hadmin : "Administrators" ∈ gs)
    (hclean : ∀ g ∈ gs, ¬ g ∈ objectProtoKeys) :
    checkUserPermissions groupsOf ev ui = true := by
  have hacts := allowedActionsOf_clean (ui.Username.getD "undefined") gs hclean
  have hstar : "*" ∈ gs.flatMap
      (fun g => (policies (ui.Username.getD "undefined") g).getD []) :=
    List.mem_flatMap.mpr ⟨"Administrators", hadmin, by simp [policies]⟩
  unfold checkUserPermissions checkPermBody
  rw [h]
  simp [hacts, hstar]

/-- Witness for the amended C4 on an event whose resource type appears
nowhere in the permission table (the endpoint is even absent). -/
theorem c4_administrators_authorized_without_proto_groups_witness :
    adminGroupsOf (UserInfo.mk (some "A1")).Username = Except.ok ["Administrators"] ∧
    "Administrators" ∈ ["Administrators"] ∧
    (∀ g ∈ ["Administrators"], ¬ g ∈ objectProtoKeys) ∧
    checkUserPermissions adminGroupsOf adminMissingEndpointEvent (UserInfo.mk (some "A1")) = true :=
  ⟨rfl, by simp, by decide,
    c4_administrators_authorized_without_proto_groups adminGroupsOf adminMissingEndpointEvent
      (UserInfo.mk (some "A1")) ["Administrators"] rfl (by simp) (by decide)⟩

/-- The Boolean test for the eight operation names of the bridge switch. -/
def supportedOperationName (op : String) : Bool :=
  op == "CreateResource" || op == "DeleteResource" || op == "ReadResource" ||
  op == "SearchAll" || op == "SearchWithGet" || op == "SearchWithPost" ||
  op == "StartFHIRExportJobWithPost" || op == "UpdateResource"

/-- C3 counterexample: a Patients-group caller issues SearchAll with no
datastoreEndpoint.  The claim says every missing-field input yields 400
`invalid_request` before any permission check; in the code the permission
check runs FIRST, `new URL(undefined)` throws inside it, the catch turns
that into a denial, and the handler answers 403 `access_denied`. -/
theorem c3_counterexample_permission_check_runs_first :
    bridgeHandler demoEnv patientDirectory patientsGroupsOf searchAllMissingEndpointEvent =
      BridgeResult.errorResp 403 "access_denied"
        "User does not have permission to perform this operation" := rfl

/-- C3 (amended): the missing-field 400 `invalid_request` response is
produced only inside `forwardRequestToHealthLake`, i.e. only AFTER the
permission check has passed and the operation name has dispatched to a
handler; the permission check is evaluated first, not after the field
check. -/
theorem c3_missing_fields_invalid_request_only_after_allow
    (env : BridgeEnv) (directory : String → Option UserInfo)
    (groupsOf : Option String → Except String (List String))
    (ev : BridgeEvent) (op : String)
    (hop : ev.operationName = some op) (hsup : supportedOperationName op = true)
    (hperm : checkUserPermissions groupsOf ev (getUserInfo directory ev) = true)
    (hmiss : jsTruthy ev.datastoreEndpoint = false ∨ jsTruthy ev.bearerToken = false) :
    bridgeHandler env directory groupsOf ev =
      BridgeResult.errorResp 400 "invalid_request"
        "Missing datastoreEndpoint or bearerToken" := by
  have hfwd : ∀ ui, forwardRequestToHealthLake env ev ui =
      BridgeResult.errorResp 400 "invalid_request"
        "Missing datastoreEndpoint or bearerToken" := by
    intro ui
    unfold forwardRequestToHealthLake
    rcases hmiss with hm | hm <;> simp [hm]
  simp only [supportedOperationName, Bool.or_eq_true, beq_iff_eq] at hsup
  unfold bridgeHandler
  simp only []
  rw [hperm]
  have htruthy : jsTruthy ev.operationName = true := by
    rw [hop]
    rcases hsup with ((((((h | h) | h) | h) | h) | h) | h) | h <;> subst h <;> rfl
  simp only [htruthy, Bool.not_true, Bool.false_eq_true, if_false, if_true]
  rw [hop]
  rcases hsup with ((((((h | h) | h) | h) | h) | h) | h) | h <;> subst h <;>
    simp [dispatchOperation, handleCreateResource, handleDeleteResource, handleReadResource,
      handleSearchAll, handleSearchWithGet, handleSearchWithPost,
      handleStartFHIRExportJobWithPost, handleUpdateResource, hfwd]

/-- Witness for the amended C3 theorem: the admin caller passes the
permission check, and the missing endpoint is then reported as 400
`invalid_request`. -/
theorem c3_missing_fields_invalid_request_only_after_allow_witness :
    adminMissingEndpointEvent.operationName = some "SearchAll" ∧
    supportedOperationName "SearchAll" = true ∧
    checkUserPermissions adminGroupsOf adminMissingEndpointEvent
      (getUserInfo adminDirectory adminMissingEndpointEvent) = true ∧
    jsTruthy adminMissingEndpointEvent.datastoreEndpoint = false ∧
    bridgeHandler demoEnv adminDirectory adminGroupsOf adminMissingEndpointEvent =
      BridgeResult.errorResp 400 "invalid_request"
        "Missing datastoreEndpoint or bearerToken" :=
  ⟨rfl, rfl, rfl, rfl,
    c3_missing_fields_invalid_request_only_after_allow demoEnv adminDirectory adminGroupsOf
      adminMissingEndpointEvent "SearchAll" rfl rfl rfl (Or.inl rfl)⟩

/-! ## Success-shape lemmas for the bridge handler -/

/-- Any successfully minted auth payload carries the clock as `iat` and
`nbf`, the clock plus 3600 as `exp`, and the username of the caller (or the
anonymous fallback) as `sub`. -/
theorem forward_success_fields (env : BridgeEnv) (ev : BridgeEvent) (ui : UserInfo)
    (p : AuthPayload) (arn : String)
    (h : forwardRequestToHealthLake env ev ui = BridgeResult.success p arn) :
    p.iat = env.now ∧ p.nbf = env.now ∧ p.exp = env.now + 3600 ∧
    p.sub = jsOrStr ui.Username "anonymous" := by
  unfold forwardRequestToHealthLake at h
  by_cases h1 : (!(jsTruthy ev.datastoreEndpoint) || !(jsTruthy ev.bearerToken)) = true
  · rw [if_pos h1] at h
    exact (BridgeResult.noConfusion h)
  · rw [if_neg h1] at h
    simp only [] at h
    by_cases h2 : (!(jsTruthy env.healthlakeRoleArn)) = true
    · rw [if_pos h2] at h
      exact (BridgeResult.noConfusion h)
    · rw [if_neg h2] at h
      injection h with hp harn
      subst hp
      exact ⟨rfl, rfl, rfl, rfl⟩

/-- A successful dispatch always factors through
`forwardRequestToHealthLake` for some user-info value. -/
theorem dispatchOperation_success (env : BridgeEnv) (ev : BridgeEvent) (ui : UserInfo)
    (op : String) (p : AuthPayload) (arn : String)
    (h : dispatchOperation env ev ui op = BridgeResult.success p arn) :
    ∃ ui2, forwardRequestToHealthLake env ev ui2 = BridgeResult.success p arn := by
  unfold dispatchOperation at h
  split_ifs at h
  all_goals
    first
      | exact ⟨ui, h⟩
      | exact ⟨osUserInfo, h⟩

/-- A successful bridge response always factors through
`forwardRequestToHealthLake`. -/
theorem bridgeHandler_success (env : BridgeEnv) (directory : String → Option UserInfo)
    (groupsOf : Option String → Except String (List String))
    (ev : BridgeEvent) (p : AuthPayload) (arn : String)
    (h : bridgeHandler env directory groupsOf ev = BridgeResult.success p arn) :
    ∃ ui2, forwardRequestToHealthLake env ev ui2 = BridgeResult.success p arn := by
  unfold bridgeHandler at h
  simp only [] at h
  by_cases hp : (!(checkUserPermissions groupsOf ev (getUserInfo directory ev))) = true
  · rw [if_pos hp] at h
    exact (BridgeResult.noConfusion h)
  · rw [if_neg hp] at h
    by_cases ht : jsTruthy ev.operationName = true
    · rw [if_pos ht] at h
      exact dispatchOperation_success _ _ _ _ _ _ h
    · rw [if_neg ht] at h
      exact (BridgeResult.noConfusion h)

/-- C6: every successful bridge response mints an assertion whose
lifetime is exactly 3600 seconds (`exp - iat = 3600`) with `nbf = iat`. -/
theorem c6_assertion_lifetime_exactly_3600
    (env : BridgeEnv) (directory : String → Option UserInfo)
    (groupsOf : Option String → Except String (List String))
    (ev : BridgeEvent) (p : AuthPayload) (arn : String)
    (h : bridgeHandler env directory groupsOf ev = BridgeResult.success p arn) :
    p.exp - p.iat = 3600 ∧ p.nbf = p.iat := by
  obtain ⟨ui2, hf⟩ := bridgeHandler_success env directory groupsOf ev p arn h
  obtain ⟨hiat, hnbf, hexp, -⟩ := forward_success_fields env ev ui2 p arn hf
  constructor
  · rw [hexp, hiat]
    omega
  · rw [hnbf, hiat]

/-- A SearchAll call by the admin with every field present. -/
def adminSearchAllEvent : BridgeEvent :=
  { operationName := some "SearchAll"
    datastoreEndpoint := some "https://healthlake.us-east-1.amazonaws.com/datastore/d1/r4"
    bearerToken := some "token-A" }

/-- The payload the bridge mints for `adminSearchAllEvent` under
`demoEnv`. -/
def adminSearchAllPayload : AuthPayload :=
  { iss := "https://main-oauth2-server-link.com/oauth2/token"
    aud := "https://healthlake.us-east-1.amazonaws.com/datastore/d1/r4"
    iat := 1000
    nbf := 1000
    exp := 4600
    isAuthorized := true
    scope := "system/*.*"
    sub := "anonymous" }

/-- Witness for C6 on a concrete successful call. -/
theorem c6_assertion_lifetime_exactly_3600_witness :
    bridgeHandler demoEnv adminDirectory adminGroupsOf adminSearchAllEvent =
      BridgeResult.success adminSearchAllPayload
        "arn:aws:iam::123456789012:role/HealthLakeRole" ∧
    (adminSearchAllPayload.exp - adminSearchAllPayload.iat = 3600 ∧
      adminSearchAllPayload.nbf = adminSearchAllPayload.iat) :=
  ⟨rfl,
    c6_assertion_lifetime_exactly_3600 demoEnv adminDirectory adminGroupsOf
      adminSearchAllEvent adminSearchAllPayload
      "arn:aws:iam::123456789012:role/HealthLakeRole" rfl⟩

/-- C10: `handleSearchAll` drops its user-info parameter, so the
module-level `os` binding (whose `Username` property is undefined) is
forwarded and every successful SearchAll response carries the anonymous
fallback subject — regardless of which user authenticated. -/
theorem c10_searchall_subject_is_anonymous
    (env : BridgeEnv) (directory : String → Option UserInfo)
    (groupsOf : Option String → Except String (List String))
    (ev : BridgeEvent) (p : AuthPayload) (arn : String)
    (hop : ev.operationName = some "SearchAll")
    (h : bridgeHandler env directory groupsOf ev = BridgeResult.success p arn) :
    p.sub = "anonymous" := by
  unfold bridgeHandler at h
  simp only [] at h
  by_cases hp : (!(checkUserPermissions groupsOf ev (getUserInfo directory ev))) = true
  · rw [if_pos hp] at h
    exact (BridgeResult.noConfusion h)
  · rw [if_neg hp] at h
    rw [hop] at h
    simp [dispatchOperation, handleSearchAll, jsTruthy] at h
    obtain ⟨-, -, -, hsub⟩ := forward_success_fields env ev osUserInfo p arn h
    exact hsub.trans rfl

/-- Witness for C10 on a concrete successful SearchAll call. -/
theorem c10_searchall_subject_is_anonymous_witness :
    adminSearchAllEvent.operationName = some "SearchAll" ∧
    bridgeHandler demoEnv adminDirectory adminGroupsOf adminSearchAllEvent =
      BridgeResult.success adminSearchAllPayload
        "arn:aws:iam::123456789012:role/HealthLakeRole" ∧
    adminSearchAllPayload.sub = "anonymous" :=
  ⟨rfl, rfl,
    c10_searchall_subject_is_anonymous demoEnv adminDirectory adminGroupsOf
      adminSearchAllEvent adminSearchAllPayload
      "arn:aws:iam::123456789012:role/HealthLakeRole" rfl rfl⟩

/-- A SearchWithGet call by patient P1 on the Patient search endpoint with
the scope parameter present (and equal to the bound value). -/
def searchWithGetOwnEvent : BridgeEvent :=
  { operationName := some "SearchWithGet"
    datastoreEndpoint :=
      some "https://healthlake.us-east-1.amazonaws.com/datastore/d1/r4/Patient?patient=P1"
    bearerToken := some "token-P1" }

/-- C7: the spec says a scoped entry satisfies a SearchWithGet permission
exactly when every parameter named in the scope constraint is present in
the request query.  In the code the check calls `queryParams.every`, a
method that does not exist on `URLSearchParams`, so evaluation throws; the
catch converts the throw into a denial, and the request is denied even
though the named parameter is present (spec-side verdict: authorized). -/
theorem c7_searchwithget_scoped_entry_always_denies :
    checkUserPermissions patientsGroupsOf searchWithGetOwnEvent patientUi = false ∧
    specAuthorized ["Patients"] (some "P1") searchWithGetOwnEvent = true ∧
    checkPermBody patientsGroupsOf searchWithGetOwnEvent patientUi =
      Except.error "TypeError: queryParams.every is not a function" :=
  ⟨rfl, rfl, rfl⟩

/-- The decisions a sequence of bridge calls produces, in call order. -/
def bridgeDecisions (groupsOf : Option String → Except String (List String))
    (calls : List (BridgeEvent × UserInfo)) : List Bool :=
  calls.map fun c => checkUserPermissions groupsOf c.1 c.2

/-- C8: the authorization decision is a pure function of its own
(groups-oracle, request, user) input: in any sequence of calls the i-th
decision is determined by the i-th call alone, and the decision for a
fixed call is unchanged under arbitrary replacement of the preceding
call history. -/
theorem c8_decision_pure_and_history_independent
    (groupsOf : Option String → Except String (List String)) :
    (∀ (calls : List (BridgeEvent × UserInfo)) (i : Nat),
      (bridgeDecisions groupsOf calls)[i]? =
        calls[i]?.map (fun c => checkUserPermissions groupsOf c.1 c.2)) ∧
    (∀ (pre₁ pre₂ : List (BridgeEvent × UserInfo)) (c : BridgeEvent × UserInfo),
      (bridgeDecisions groupsOf (pre₁ ++ [c])).getLast? =
        (bridgeDecisions groupsOf (pre₂ ++ [c])).getLast?) := by
  constructor
  · intro calls i
    unfold bridgeDecisions
    exact List.getElem?_map _ _ _
  · intro pre₁ pre₂ c
    simp [bridgeDecisions, List.getLast?_concat]

/-! ## Gateway authorizer claims -/

/-- C5: whenever any stage of the authorizer body fails — missing token,
undecodable token, missing header or payload, key-resolution failure, or
signature/temporal verification failure — the handler returns the
standardized deny policy on the requested method ARN; the handler is a
total function, so no error propagates. -/
theorem c5_gateway_stage_error_yields_deny (crypto : GatewayCrypto) (ev : GatewayEvent)
    (e : String) (h : gatewayBody crypto ev = Except.error e) :
    gatewayHandler crypto ev =
      { principalId := "unauthorized"
        statement :=
          { action := "execute-api:Invoke"
            effect := Effect.deny
            resource := ev.methodArn }
        context := none } := by
  unfold gatewayHandler
  rw [h]
  rfl

/-- Oracles on which every cryptographic stage fails. -/
def failingCrypto : GatewayCrypto :=
  { decode := fun _ => none
    getKey := fun _ => Except.error "Key not found"
    verify := fun _ _ => Except.error "invalid signature" }

/-- A gateway event with a bearer token and a concrete method ARN. -/
def demoGatewayEvent : GatewayEvent :=
  { authorizationToken := some "Bearer some-jwt"
    methodArn := "arn:aws:execute-api:us-east-1:123456789012:apiid/prod/GET/patient" }

/-- Witness for C5: an undecodable token produces the deny policy. -/
theorem c5_gateway_stage_error_yields_deny_witness :
    gatewayBody failingCrypto demoGatewayEvent = Except.error "Invalid token format" ∧
    gatewayHandler failingCrypto demoGatewayEvent =
      { principalId := "unauthorized"
        statement :=
          { action := "execute-api:Invoke"
            effect := Effect.deny
            resource := demoGatewayEvent.methodArn }
        context := none } :=
  ⟨rfl,
    c5_gateway_stage_error_yields_deny failingCrypto demoGatewayEvent
      "Invalid token format" rfl⟩

/-- A verified payload whose groups claim names an inherited
`Object.prototype` member. -/
def protoGroupsPayload : TokenPayload :=
  { sub := "S1"
    email := none
    preferredUsername := none
    cognitoGroups := some ["toString"] }

/-- Oracles on which every cryptographic stage succeeds, yielding the
prototype-member groups payload. -/
def protoGroupsCrypto : GatewayCrypto :=
  { decode := fun _ =>
      some { header := some { kid := some "kid-1" }, payload := some protoGroupsPayload }
    getKey := fun _ => Except.ok "PUBLIC-KEY"
    verify := fun _ _ => Except.ok protoGroupsPayload }

/-- C9 counterexample: a token that passes every cryptographic stage but
carries the groups claim [toString] is DENIED: the permission reduce
spreads the inherited `Object.prototype.toString` (truthy, surviving the
falsy-default, not iterable), the throw is caught, and the handler
returns the standardized deny policy — so the allow/deny decision is not
independent of the role-to-permission mapping step. -/
theorem c9_counterexample_proto_group_token_denied :
    (protoGroupsCrypto.verify "some-jwt" "PUBLIC-KEY" = Except.ok protoGroupsPayload) ∧
    gatewayHandler protoGroupsCrypto demoGatewayEvent =
      { principalId := "unauthorized"
        statement :=
          { action := "execute-api:Invoke"
            effect := Effect.deny
            resource := demoGatewayEvent.methodArn }
        context := none } :=
  ⟨rfl, rfl⟩

/-- C9 (amended): whenever the token is present, decodes with a header
and payload, its signing key resolves, verification succeeds, and no
group name collides with an inherited `Object.prototype` member, the
authorizer answers Allow on the requested method ARN — for EVERY such
verified payload, in particular one with no groups claim or an empty
permission set: the permission table only feeds the forwarded context.
(The prototype-collision proviso is forced by the counterexample: there
the permission-accumulation step itself throws and yields Deny.) -/
theorem c9_verified_clean_token_always_allow (crypto : GatewayCrypto) (ev : GatewayEvent)
    (d : DecodedToken) (hd : JwtHeader) (key : String) (pl : TokenPayload)
    (htok : jsTruthy ev.authorizationToken = true)
    (hdec : crypto.decode (removeFirst (ev.authorizationToken.getD "") "Bearer ") = some d)
    (hhdr : d.header = some hd)
    (hpl : d.payload.isSome = true)
    (hkey : crypto.getKey hd.kid = Except.ok key)
    (hver : crypto.verify (removeFirst (ev.authorizationToken.getD "") "Bearer ") key
      = Except.ok pl)
    (hclean : ∀ g ∈ pl.cognitoGroups.getD [], ¬ g ∈ objectProtoKeys) :
    (gatewayHandler crypto ev).statement.effect = Effect.allow ∧
    (gatewayHandler crypto ev).statement.resource = ev.methodArn := by
  obtain ⟨plDec, hplEq⟩ := Option.isSome_iff_exists.mp hpl
  have hacts := allowedActionsOf_clean pl.sub (pl.cognitoGroups.getD []) hclean
  unfold gatewayHandler gatewayBody
  simp [htok, hdec, hhdr, hplEq, hkey, hver, hacts]

/-- The verified payload of the C9 witness: no email, no preferred user
name, and no groups claim at all. -/
def demoPayloadNoGroups : TokenPayload :=
  { sub := "S1"
    email := none
    preferredUsername := none
    cognitoGroups := none }

/-- Oracles on which every cryptographic stage succeeds, yielding a
payload with no groups. -/
def allowCrypto : GatewayCrypto :=
  { decode := fun _ =>
      some { header := some { kid := some "kid-1" }, payload := some demoPayloadNoGroups }
    getKey := fun _ => Except.ok "PUBLIC-KEY"
    verify := fun _ _ => Except.ok demoPayloadNoGroups }

/-- Witness for the amended C9: a verifying token with an absent groups
claim is allowed on the requested method ARN. -/
theorem c9_verified_clean_token_always_allow_witness :
    jsTruthy demoGatewayEvent.authorizationToken = true ∧
    (gatewayHandler allowCrypto demoGatewayEvent).statement.effect = Effect.allow ∧
    (gatewayHandler allowCrypto demoGatewayEvent).statement.resource =
      demoGatewayEvent.methodArn :=
  ⟨rfl,
    (c9_verified_clean_token_always_allow allowCrypto demoGatewayEvent
      { header := some { kid := some "kid-1" }, payload := some demoPayloadNoGroups }
      { kid := some "kid-1" } "PUBLIC-KEY" demoPayloadNoGroups
      rfl rfl rfl rfl rfl rfl (by decide)).1,
    (c9_verified_clean_token_always_allow allowCrypto demoGatewayEvent
      { header := some { kid := some "kid-1" }, payload := some demoPayloadNoGroups }
      { kid := some "kid-1" } "PUBLIC-KEY" demoPayloadNoGroups
      rfl rfl rfl rfl rfl rfl (by decide)).2⟩

end HLBridge
